import Mathlib

/-!
Verification development for kas-insider-scanner (src/scanner.py).

The scanner polls the SEC "current filings" Atom feed, extracts Form 4
non-derivative purchase transactions with regex-based parsing, filters them
by a USD value threshold and a structural (price-position) filter, scores
them, and renders a Telegram digest.

Python string/number primitives used by scanner.py are embedded over
List Char / String and ℚ:
  * Python str.strip()           -> pyStripL / pyStripS
  * Python str.upper()/lower()   -> pyUpper / pyLower (ASCII, as in all inputs)
  * Python float(...)            -> pyFloat (finite decimal literals with
                                    optional sign / fraction / exponent;
                                    "inf"/"nan"/underscores are not modelled,
                                    they never occur in the scanner's data)
  * Python re.search / re.findall with the DOTALL lazy patterns of
    scanner.py -> splitFirst / searchTag / innerValue / findBlocks,
    reproducing leftmost-then-shortest match semantics.
-/

set_option maxRecDepth 4000

attribute [local semireducible] Rat.add Rat.mul Rat.sub Rat.inv Rat.ofScientific

/-- Characters stripped by Python str.strip() with no argument (ASCII range). -/
def isPySpace (c : Char) : Bool :=
  c = ' ' || c = '\t' || c = '\n' || c = '\r' || c = '\x0b' || c = '\x0c'

/-- Python str.strip() on a character list. -/
def pyStripL (l : List Char) : List Char :=
  ((l.dropWhile isPySpace).reverse.dropWhile isPySpace).reverse

/-- Python str.strip() on a String. -/
def pyStripS (s : String) : String := ⟨pyStripL s.data⟩

/-- Python str.upper() (ASCII case mapping, as for all scanner inputs). -/
def pyUpper (s : String) : String := ⟨s.data.map Char.toUpper⟩

/-- Python str.lower() (ASCII case mapping, as for all scanner inputs). -/
def pyLower (s : String) : String := ⟨s.data.map Char.toLower⟩

/-- Split a character list at the first occurrence of the pattern `pat`:
returns (text before the occurrence, text after the occurrence), or none
when `pat` does not occur.  This is the primitive for the scanner's lazy
DOTALL regex fragments. -/
def splitFirst (pat : List Char) : List Char → Option (List Char × List Char)
  | [] => if pat.isEmpty then some ([], []) else none
  | c :: rest =>
    if pat.isPrefixOf (c :: rest) then some ([], (c :: rest).drop pat.length)
    else
      match splitFirst pat rest with
      | some (pre, post) => some (c :: pre, post)
      | none => none

/-- Does `pat` occur in `s` as a contiguous sublist (Python `in`)? -/
def containsSub (pat s : List Char) : Bool := (splitFirst pat s).isSome

/-- Closing tag text for a tag name, as the scanner's regexes write it. -/
def closeTagOf (tag : List Char) : List Char := '<' :: '/' :: (tag ++ ['>'])

/-- One anchored attempt of the regex `<tag[^>]*>` at the front of `t`:
if `t` starts with `<tag`, consume up to and including the first following
`>` and return the remainder.  (`[^>]*` is greedy but can only end at the
first `>`, so the match is unique.) -/
def attemptOpen (tag t : List Char) : Option (List Char) :=
  if List.isPrefixOf ('<' :: tag) t then
    match splitFirst ['>'] (t.drop (tag.length + 1)) with
    | some (_, v) => some v
    | none => none
  else none

/-- One anchored attempt of `<tag[^>]*>(.*?)</tag>` at the front of `t`. -/
def attemptTag (tag t : List Char) : Option (List Char) :=
  match attemptOpen tag t with
  | none => none
  | some v =>
    match splitFirst (closeTagOf tag) v with
    | some (cap, _) => some cap
    | none => none

/-- re.search of `<tag[^>]*>(.*?)</tag>` with DOTALL: leftmost start
position wins, and at that position the lazy group captures up to the first
closing tag.  Failure at one start position moves the start one character
to the right, exactly as the backtracking engine does. -/
def searchTagAux (tag : List Char) : List Char → Option (List Char)
  | [] => none
  | c :: rest =>
    match attemptTag tag (c :: rest) with
    | some cap => some cap
    | none => searchTagAux tag rest

/-- Model of scanner.py's `tag_value` / `get` / `val` helpers
(lines 75-77, 164-166, 191-193): regex search of
`<tag[^>]*>(.*?)</tag>` followed by .strip() of the captured group. -/
def searchTag (tag s : String) : Option String :=
  (searchTagAux tag.data s.data).map (fun l => (⟨pyStripL l⟩ : String))

/-- One anchored attempt of `<tag[^>]*>.*?<value>(.*?)</value>.*?</tag>`
at the front of `t`.  Each lazy `.*?` stops at the first occurrence of the
literal that follows it; if a later literal is absent in the remaining
suffix it is absent after every later alternative too, so no further
backtracking inside the attempt can succeed. -/
def attemptInner (tag t : List Char) : Option (List Char) :=
  match attemptOpen tag t with
  | none => none
  | some v =>
    match splitFirst ('<' :: 'v' :: 'a' :: 'l' :: 'u' :: 'e' :: ['>']) v with
    | none => none
    | some (_, w) =>
      match splitFirst ('<' :: '/' :: 'v' :: 'a' :: 'l' :: 'u' :: 'e' :: ['>']) w with
      | none => none
      | some (cap, x) =>
        match splitFirst (closeTagOf tag) x with
        | none => none
        | some _ => some cap

/-- re.search of `<tag[^>]*>.*?<value>(.*?)</value>.*?</tag>` with DOTALL:
leftmost start position wins. -/
def searchInnerAux (tag : List Char) : List Char → Option (List Char)
  | [] => none
  | c :: rest =>
    match attemptInner tag (c :: rest) with
    | some cap => some cap
    | none => searchInnerAux tag rest

/-- Model of scanner.py's `inner_value` helper (lines 173-175): regex search
of the value-wrapped form, with .strip() of the captured group. -/
def innerValue (tag s : String) : Option String :=
  (searchInnerAux tag.data s.data).map (fun l => (⟨pyStripL l⟩ : String))

/-- Python truthiness of `a or b` on optional strings (scanner.py lines
177-178): the left side is kept only when it is a non-empty string. -/
def pyOrStr (a b : Option String) : Option String :=
  match a with
  | some s => if s = "" then b else some s
  | none => b

/-- Fueled worker for re.findall of `<open>(.*?)</close>` style patterns:
repeatedly take the text between the next opening literal and the first
closing literal after it, and continue scanning after the closing literal
(non-overlapping matches, as re.findall does).  Each successful round
strictly shortens the remaining text (both literals are non-empty), so
fuel equal to the initial length never runs out. -/
def findAllBetween (openT closeT : List Char) : ℕ → List Char → List (List Char)
  | 0, _ => []
  | fuel + 1, s =>
    match splitFirst openT s with
    | none => []
    | some (_, v) =>
      match splitFirst closeT v with
      | none => []
      | some (cap, rest) => cap :: findAllBetween openT closeT fuel rest

/-- Model of re.findall of
`<nonDerivativeTransaction>(.*?)</nonDerivativeTransaction>` with DOTALL
(scanner.py line 162): the exact literal tags, non-overlapping, lazy. -/
def findBlocks (s : List Char) : List (List Char) :=
  findAllBetween ("<nonDerivativeTransaction>".data)
    ("</nonDerivativeTransaction>".data) s.length s

/-- Accumulate the value of a run of decimal digit characters. -/
def digitsToNat (l : List Char) : ℕ :=
  l.foldl (fun n c => n * 10 + (c.toNat - 48)) 0

/-- Exponent suffix of a Python float literal: optional sign then at least
one digit, with nothing left over. -/
def parseExpPart (mant : ℚ) (r : List Char) : Option ℚ :=
  let signed : Bool × List Char :=
    match r with
    | '+' :: t => (false, t)
    | '-' :: t => (true, t)
    | t => (false, t)
  let ed := signed.2.takeWhile Char.isDigit
  let r2 := signed.2.dropWhile Char.isDigit
  if ed.isEmpty || !r2.isEmpty then none
  else
    let e := digitsToNat ed
    some (if signed.1 then mant / (10 : ℚ) ^ e else mant * (10 : ℚ) ^ e)

/-- Python float(...) on a finite decimal literal: optional sign, digits
with an optional fraction ("1", "1.", "1.5", ".5"), optional e/E exponent.
Anything else (including the strings "inf" and "nan" and underscore
separators, which never occur in the scanner's inputs) yields none,
modelling the ValueError caught by to_float. -/
def pyFloat (s0 : List Char) : Option ℚ :=
  let signed : Bool × List Char :=
    match s0 with
    | '+' :: r => (false, r)
    | '-' :: r => (true, r)
    | r => (false, r)
  let ip := signed.2.takeWhile Char.isDigit
  let s2 := signed.2.dropWhile Char.isDigit
  let fracd : List Char × List Char :=
    match s2 with
    | '.' :: r => (r.takeWhile Char.isDigit, r.dropWhile Char.isDigit)
    | r => ([], r)
  if ip.isEmpty && fracd.1.isEmpty then none
  else
    let mant : ℚ :=
      (digitsToNat ip : ℚ) + (digitsToNat fracd.1 : ℚ) / (10 : ℚ) ^ fracd.1.length
    let mant := if signed.1 then -mant else mant
    match fracd.2 with
    | [] => some mant
    | 'e' :: r => parseExpPart mant r
    | 'E' :: r => parseExpPart mant r
    | _ => none

-- ====== Configuration constants (scanner.py lines 19-24) ======

/-- MIN_USD = 150_000 (scanner.py line 19). -/
def MIN_USD : ℚ := 150000

/-- MAX_ITEMS = 8 (scanner.py line 20). -/
def MAX_ITEMS : ℕ := 8

/-- RANGE_PCTL_MAX = 0.65 (scanner.py line 23). -/
def RANGE_PCTL_MAX : ℚ := 65 / 100

/-- DRAWDOWN_3M_MIN = 0.15 (scanner.py line 24). -/
def DRAWDOWN_3M_MIN : ℚ := 15 / 100

-- ====== Data model (scanner.py lines 32-55) ======

/-- BuyTx dataclass (scanner.py lines 32-46).  Monetary and share
quantities are embedded as ℚ; the filing timestamp, only compared against
the feed cutoff, is carried as its source string. -/
structure BuyTx where
  ticker : String
  filing_time_utc : String
  cik : String
  accession : String
  insider_title : String
  is_director : Bool
  is_officer : Bool
  is_ten_percent : Bool
  shares : ℚ
  price : ℚ
  value_usd : ℚ
  sec_doc_url : String
  sec_xml_url : String
deriving DecidableEq, Repr

/-- Enriched dataclass (scanner.py lines 48-55). -/
structure Enriched where
  tx : BuyTx
  range_pctl_52w : Option ℚ
  drawdown_3m : Option ℚ
  day_pct : Option ℚ
  vol_ratio : Option ℚ
  score : ℚ
deriving DecidableEq, Repr

/-- One element of parse_form4_xml's result list (the dict built at
scanner.py lines 182-187). -/
structure ParsedTx where
  code : Option String
  acq_disp : Option String
  shares : Option String
  price : Option String
deriving DecidableEq, Repr

/-- Result dict of parse_header_fields (scanner.py lines 201-207). -/
structure Form4Header where
  ticker : String
  officer_title : String
  is_director : Bool
  is_officer : Bool
  is_ten : Bool
deriving DecidableEq, Repr

-- ====== Parsing (scanner.py lines 155-215) ======

/-- parse_form4_xml (scanner.py lines 155-188): split the document into
nonDerivativeTransaction blocks and, per block, read transactionCode and
transactionAcquiredDisposedCode directly or from a nested value wrapper
(`inner_value(...) or direct`), and shares / price from the value wrapper
only — the direct-text reads of lines 170-171 are bound to local variables
that the dict on lines 182-187 never uses, which is mirrored here by the
unused bindings. -/
def parse_form4_xml (xml_text : String) : List ParsedTx :=
  (findBlocks xml_text.data).map fun bl =>
    let b : String := ⟨bl⟩
    let code := searchTag "transactionCode" b
    let acq_disp := searchTag "transactionAcquiredDisposedCode" b
    let _shares_direct := searchTag "transactionShares" b
    let _price_direct := searchTag "transactionPricePerShare" b
    let code := pyOrStr (innerValue "transactionCode" b) code
    let acq_disp := pyOrStr (innerValue "transactionAcquiredDisposedCode" b) acq_disp
    let shares_v := innerValue "transactionShares" b
    let price_v := innerValue "transactionPricePerShare" b
    { code := code, acq_disp := acq_disp, shares := shares_v, price := price_v }

/-- parse_header_fields (scanner.py lines 190-207). -/
def parse_header_fields (xml_text : String) : Form4Header :=
  let ticker := searchTag "issuerTradingSymbol" xml_text
  let officer_title := (searchTag "officerTitle" xml_text).getD ""
  let is_director := pyLower ((searchTag "isDirector" xml_text).getD "") = "true"
  let is_officer := pyLower ((searchTag "isOfficer" xml_text).getD "") = "true"
  let is_ten := pyLower ((searchTag "isTenPercentOwner" xml_text).getD "") = "true"
  { ticker := pyUpper (pyStripS (ticker.getD ""))
    officer_title := pyStripS officer_title
    is_director := is_director
    is_officer := is_officer
    is_ten := is_ten }

/-- to_float (scanner.py lines 209-215): None propagates; otherwise commas
are removed, the string is stripped, and Python float parsing is applied,
with failures mapped to None. -/
def to_float (x : Option String) : Option ℚ :=
  match x with
  | none => none
  | some s => pyFloat (pyStripL (s.data.filter (fun c => c ≠ ',')))

-- ====== Structural filter and scoring (scanner.py lines 254-286) ======

/-- passes_structure (scanner.py lines 254-257): ok when the 52-week range
percentile is present and at most RANGE_PCTL_MAX, or the 3-month drawdown
is present and at least DRAWDOWN_3M_MIN.  Absent (None) metrics make their
disjunct false. -/
def passes_structure (range_pctl drawdown_3m : Option ℚ) : Bool :=
  let ok_range :=
    match range_pctl with
    | some r => decide (r ≤ RANGE_PCTL_MAX)
    | none => false
  let ok_dd :=
    match drawdown_3m with
    | some d => decide (DRAWDOWN_3M_MIN ≤ d)
    | none => false
  ok_range || ok_dd

/-- weight_role (scanner.py lines 259-270).  Python `k in t` substring
tests are containsSub on the lowercased title. -/
def weight_role (officer_title : String) (is_director is_officer is_ten : Bool) : ℚ :=
  let t := (pyLower officer_title).data
  let w : ℚ := 1
  let w :=
    if containsSub "ceo".data t || containsSub "chief executive".data t ||
        containsSub "cfo".data t || containsSub "chief financial".data t ||
        containsSub "president".data t then
      w + 12 / 10
    else if is_director then w + 8 / 10
    else if is_officer then w + 3 / 10
    else w
  if is_ten then w + 2 / 10 else w

/-- score_tx (scanner.py lines 272-286). -/
def score_tx (value_usd role_w : ℚ) (range_pctl drawdown_3m : Option ℚ) : ℚ :=
  let sc := role_w
  let sc := if 300000 ≤ value_usd then sc + 8 / 10 else sc
  let sc := if 500000 ≤ value_usd then sc + 6 / 10 else sc
  let sc :=
    match range_pctl with
    | some r => if r ≤ 1 / 2 then sc + 16 / 10 else if r ≤ 65 / 100 then sc + 1 else sc
    | none => sc
  match drawdown_3m with
  | some d => if DRAWDOWN_3M_MIN ≤ d then sc + 8 / 10 else sc
  | none => sc

-- ====== Per-transaction selection (scanner.py lines 326-365) ======

/-- Body of the per-transaction loop of fetch_sec_buys_last_24h
(scanner.py lines 332-365): a parsed block becomes a BuyTx only when its
stripped, upper-cased transaction code is "P", its acquired/disposed code
is empty or "A", both shares and price parse via to_float, and
shares * price is not below MIN_USD.  The header fields and the per-filing
strings (filing time, CIK, accession, folder and xml URLs) are those in
scope at lines 349-364. -/
def selectTx (header : Form4Header)
    (filing_time cik acc folder_url xml_url : String) (tx : ParsedTx) : Option BuyTx :=
  let code := pyUpper (pyStripS (tx.code.getD ""))
  let acq := pyUpper (pyStripS (tx.acq_disp.getD ""))
  if code ≠ "P" then none
  else if acq ≠ "" ∧ acq ≠ "A" then none
  else
    match to_float tx.shares, to_float tx.price with
    | some sh, some pr =>
      let value_usd := sh * pr
      if value_usd < MIN_USD then none
      else
        some
          { ticker := header.ticker
            filing_time_utc := filing_time
            cik := cik
            accession := acc
            insider_title :=
              if header.officer_title ≠ "" then header.officer_title
              else if header.is_director then "Director" else ""
            is_director := header.is_director
            is_officer := header.is_officer
            is_ten_percent := header.is_ten
            shares := sh
            price := pr
            value_usd := value_usd
            sec_doc_url := folder_url
            sec_xml_url := xml_url }
    | _, _ => none

/-- Per-document part of fetch_sec_buys_last_24h (scanner.py lines
326-365): parse the header, skip the document when the ticker is empty,
and run every parsed block through the transaction filter. -/
def docRecords (xml_text filing_time cik acc folder_url xml_url : String) : List BuyTx :=
  let header := parse_header_fields xml_text
  if header.ticker = "" then []
  else (parse_form4_xml xml_text).filterMap (selectTx header filing_time cik acc folder_url xml_url)

-- ====== Enrichment step of main (scanner.py lines 398-416) ======

/-- Body of main's enrichment loop (scanner.py lines 398-416): a BuyTx and
the four metrics returned by yf_enrich become an Enriched alert only when
passes_structure holds on the percentile and drawdown; otherwise the
transaction is skipped.  The score is computed exactly as on lines
404-405.  This is a total function: absent (None) metrics flow through
passes_structure and score_tx without error. -/
def enrichStep (tx : BuyTx) (range_pctl drawdown_3m day_pct vol_ratio : Option ℚ) :
    Option Enriched :=
  if passes_structure range_pctl drawdown_3m then
    some
      { tx := tx
        range_pctl_52w := range_pctl
        drawdown_3m := drawdown_3m
        day_pct := day_pct
        vol_ratio := vol_ratio
        score :=
          score_tx tx.value_usd
            (weight_role tx.insider_title tx.is_director tx.is_officer tx.is_ten_percent)
            range_pctl drawdown_3m }
  else none

-- ====== Digest rendering (scanner.py lines 369-389) ======

/-- Stable descending sort by score, the meaning of Python's
`sorted(items, key=lambda x: x.score, reverse=True)` on line 373: sorted()
is a stable sort, and with reverse=True equal-score elements keep their
original relative order, so the result is the unique reordering that is
non-increasing in score and preserves input order on ties; insertion that
skips strictly greater scores realizes it. -/
def insertDesc (a : Enriched) : List Enriched → List Enriched
  | [] => [a]
  | b :: bs => if a.score < b.score then b :: insertDesc a bs else a :: b :: bs

/-- Stable descending-by-score sort (see insertDesc). -/
def sortDesc : List Enriched → List Enriched
  | [] => []
  | a :: rest => insertDesc a (sortDesc rest)

/-- Decimal digit characters of n, most significant first (fueled). -/
def natDigitsAux : ℕ → ℕ → List Char
  | 0, _ => []
  | fuel + 1, n =>
    if n < 10 then [Char.ofNat (48 + n)]
    else natDigitsAux fuel (n / 10) ++ [Char.ofNat (48 + n % 10)]

/-- Decimal digit characters of n, most significant first. -/
def natDigits (n : ℕ) : List Char := natDigitsAux (n + 1) n

/-- Insert a comma after every three characters of a least-significant-first
digit list, Python's thousands grouping seen from the right. -/
def groupRev : List Char → List Char
  | a :: b :: c :: d :: rest => a :: b :: c :: ',' :: groupRev (d :: rest)
  | l => l

/-- Decimal rendering of a natural number. -/
def fmtNat (n : ℕ) : String := ⟨natDigits n⟩

/-- Decimal rendering of a natural number with comma thousands grouping. -/
def fmtNatGrouped (n : ℕ) : String := ⟨(groupRev (natDigits n).reverse).reverse⟩

/-- Round to the nearest integer, ties to even: the rounding of Python's
fixed-point float formatting, applied here to the exact rational value. -/
def roundHalfEven (q : ℚ) : ℤ :=
  let f := ⌊q⌋
  let r := q - (f : ℚ)
  if r < 1 / 2 then f
  else if 1 / 2 < r then f + 1
  else if f % 2 = 0 then f else f + 1

/-- Python format(x, ".Df") / format(x, ",.Df") on an exact rational:
round-half-even at D decimals, optional comma grouping of the integer
part.  (The sign of a negative value that rounds to zero is not modelled;
no scanner output hits that case.) -/
def fmtFixed (grouped : Bool) (d : ℕ) (x : ℚ) : String :=
  let n : ℤ := roundHalfEven (x * (10 : ℚ) ^ d)
  let m : ℕ := n.natAbs
  let ip : ℕ := m / 10 ^ d
  let fp : ℕ := m % 10 ^ d
  let ipStr := if grouped then fmtNatGrouped ip else fmtNat ip
  let fpDigits := natDigits fp
  let fpStr :=
    if d = 0 then ""
    else "." ++ (⟨List.replicate (d - fpDigits.length) '0' ++ fpDigits⟩ : String)
  (if n < 0 then "-" else "") ++ ipStr ++ fpStr

/-- Per-alert lines of build_digest (scanner.py lines 376-388), with the
1-based enumeration index. -/
def digestLines : ℕ → List Enriched → List String
  | _, [] => []
  | i, it :: rest =>
    let tx := it.tx
    let rp :=
      match it.range_pctl_52w with
      | some r => fmtFixed false 0 (r * 100) ++ "%"
      | none => "n/a"
    let dd :=
      match it.drawdown_3m with
      | some x => fmtFixed false 0 (x * 100) ++ "%"
      | none => "n/a"
    let day :=
      match it.day_pct with
      | some x => fmtFixed false 1 (x * 100) ++ "%"
      | none => "n/a"
    let vr :=
      match it.vol_ratio with
      | some x => fmtFixed false 1 x ++ "x"
      | none => "n/a"
    let role :=
      if tx.insider_title ≠ "" then tx.insider_title
      else if tx.is_director then "Director" else "Officer"
    (fmtNat i ++ ") " ++ tx.ticker ++ " — Score " ++ fmtFixed false 1 it.score)
      :: ("   Insider: " ++ role ++ " | $" ++ fmtFixed true 0 tx.value_usd ++ " (P)")
      :: ("   Struktūra: Range " ++ rp ++ " | 3m DD " ++ dd ++ " | Reakcija " ++ day
            ++ " | Vol " ++ vr)
      :: ("   SEC: " ++ tx.sec_xml_url)
      :: ""
      :: digestLines (i + 1) rest

/-- Rendering of an already sorted-and-truncated alert list: header lines,
per-alert lines, newline join, final strip (scanner.py lines 375-389). -/
def renderDigest (items : List Enriched) : String :=
  pyStripS (String.intercalate "\n" (["KAS RADAR 06:00", ""] ++ digestLines 1 items))

/-- build_digest (scanner.py lines 369-389): heartbeat message on an empty
list, otherwise stable-sort by score descending, truncate to MAX_ITEMS and
render.  Nothing records how many alerts the truncation dropped. -/
def build_digest (items : List Enriched) : String :=
  if items.isEmpty then "KAS RADAR 06:00\n\n0 signalų šiandien."
  else renderDigest ((sortDesc items).take MAX_ITEMS)

-- ====== Spec-modelled components absent from src/ ======

/-- Modelled from the spec: the Dedup Store and the dedup-aware pipeline
loop (spec sections 2, 4.5, 8) are repository components not present in
src/scanner.py, which re-alerts on every run.  Per the spec's control
flow, each feed candidate is short-circuited when already seen, and is
otherwise processed (extraction plus filtering, abstracted as the
`extract` argument) and marked seen regardless of whether it matched.
The state is the list of seen candidate identifiers. -/
def processFeed {α : Type} (extract : String → List α) :
    List String → List String → List α × List String
  | [], seen => ([], seen)
  | c :: rest, seen =>
    if c ∈ seen then processFeed extract rest seen
    else
      let p := processFeed extract rest (c :: seen)
      (extract c ++ p.1, p.2)

/-- Modelled from the spec: the Resilient Fetcher's exponential backoff
(spec section 4.1, "base delay doubling per attempt, capped at a
configured ceiling") is repository code not under src/ — http_get
(scanner.py lines 57-61) issues a single GET without retry.  Delay before
retrying attempt n (0-based). -/
def backoffDelay (base ceiling : ℚ) (n : ℕ) : ℚ :=
  min (base * 2 ^ n) ceiling

/-- Modelled from the spec: the Resilient Fetcher's retry loop (spec
section 4.1) is repository code not under src/.  `retryable i = true`
means attempt i hits a retryable status (429 / 5xx) or a network failure;
the loop stops at the first non-retryable outcome or after the configured
maximum attempt count.  Returns the number of attempts issued starting
from attempt index i. -/
def attemptsUsed (retryable : ℕ → Bool) : ℕ → ℕ → ℕ
  | 0, _ => 0
  | maxA + 1, i => if retryable i then 1 + attemptsUsed retryable maxA (i + 1) else 1

-- ====== Concrete Form 4 fixtures ======

/-- Form 4 body with unprefixed tags: one non-derivative purchase of 1000
shares at 200 (value-wrapped numeric fields, as in the live schema). -/
def docPlain : String :=
  "<ownershipDocument><issuerTradingSymbol>ACME</issuerTradingSymbol>" ++
  "<officerTitle>CEO</officerTitle><isDirector>true</isDirector>" ++
  "<nonDerivativeTransaction><transactionCode>P</transactionCode>" ++
  "<transactionAcquiredDisposedCode><value>A</value></transactionAcquiredDisposedCode>" ++
  "<transactionShares><value>1000</value></transactionShares>" ++
  "<transactionPricePerShare><value>200</value></transactionPricePerShare>" ++
  "</nonDerivativeTransaction></ownershipDocument>"

/-- The same document as docPlain with every element carrying the
namespace prefix ns:. -/
def docPrefixed : String :=
  "<ns:ownershipDocument><ns:issuerTradingSymbol>ACME</ns:issuerTradingSymbol>" ++
  "<ns:officerTitle>CEO</ns:officerTitle><ns:isDirector>true</ns:isDirector>" ++
  "<ns:nonDerivativeTransaction><ns:transactionCode>P</ns:transactionCode>" ++
  "<ns:transactionAcquiredDisposedCode><ns:value>A</ns:value></ns:transactionAcquiredDisposedCode>" ++
  "<ns:transactionShares><ns:value>1000</ns:value></ns:transactionShares>" ++
  "<ns:transactionPricePerShare><ns:value>200</ns:value></ns:transactionPricePerShare>" ++
  "</ns:nonDerivativeTransaction></ns:ownershipDocument>"

/-- The same transaction as docPlain with the numeric fields as direct
text content of their elements instead of a nested value wrapper. -/
def docDirect : String :=
  "<ownershipDocument><issuerTradingSymbol>ACME</issuerTradingSymbol>" ++
  "<officerTitle>CEO</officerTitle><isDirector>true</isDirector>" ++
  "<nonDerivativeTransaction><transactionCode>P</transactionCode>" ++
  "<transactionAcquiredDisposedCode>A</transactionAcquiredDisposedCode>" ++
  "<transactionShares>1000</transactionShares>" ++
  "<transactionPricePerShare>200</transactionPricePerShare>" ++
  "</nonDerivativeTransaction></ownershipDocument>"

/-- Header fields of docPlain / docDirect. -/
def hdrACME : Form4Header :=
  { ticker := "ACME", officer_title := "CEO"
    is_director := true, is_officer := false, is_ten := false }

-- ====== Concrete digest fixtures ======

/-- An Enriched alert with the given score, ticker and transaction value;
enrichment metrics absent. -/
def mkAlert (score : ℚ) (ticker : String) (value : ℚ) : Enriched :=
  { tx :=
      { ticker := ticker, filing_time_utc := "", cik := "", accession := ""
        insider_title := "CEO", is_director := false, is_officer := true
        is_ten_percent := false, shares := 0, price := 0, value_usd := value
        sec_doc_url := "", sec_xml_url := "u" }
    range_pctl_52w := none, drawdown_3m := none, day_pct := none
    vol_ratio := none, score := score }

/-- Nine scored alerts, one more than MAX_ITEMS, scores 9 down to 1. -/
def nineAlerts : List Enriched :=
  [mkAlert 9 "T9" 200000, mkAlert 8 "T8" 0, mkAlert 7 "T7" 0,
   mkAlert 6 "T6" 0, mkAlert 5 "T5" 0, mkAlert 4 "T4" 0,
   mkAlert 3 "T3" 0, mkAlert 2 "T2" 0, mkAlert 1 "T1" 0]

/-- The first eight of nineAlerts: what survives truncation to MAX_ITEMS. -/
def eightAlerts : List Enriched := nineAlerts.take 8

-- ====== Witness transactions ======

/-- Parsed purchase block whose value is exactly MIN_USD. -/
def txAtMin : ParsedTx :=
  { code := some "P", acq_disp := some "A", shares := some "1000", price := some "150" }

/-- Parsed purchase block whose value is one cent above MIN_USD. -/
def txOneCent : ParsedTx :=
  { code := some "P", acq_disp := some "A", shares := some "1000", price := some "150.01" }

/-- Parsed purchase block with negative share count and negative price. -/
def txNegNeg : ParsedTx :=
  { code := some "P", acq_disp := none, shares := some "-100", price := some "-2000" }

/-- Parsed purchase block whose acquired/disposed code is D. -/
def txBadAcq : ParsedTx :=
  { code := some "P", acq_disp := some "D", shares := some "1000", price := some "200" }

/-- Parsed purchase block with the acquired/disposed code absent. -/
def txNoAcq : ParsedTx :=
  { code := some "P", acq_disp := none, shares := some "1000", price := some "200" }

/-- A concrete BuyTx for score witnesses. -/
def buyW : BuyTx :=
  { ticker := "ACME", filing_time_utc := "", cik := "", accession := ""
    insider_title := "CEO", is_director := false, is_officer := true
    is_ten_percent := false, shares := 1000, price := 200, value_usd := 200000
    sec_doc_url := "", sec_xml_url := "" }

/-- The Enriched alert main builds from buyW at range percentile 0.3 with
the other metrics absent: role weight 2.2 plus range bonus 1.6. -/
def alertW : Enriched :=
  { tx := buyW, range_pctl_52w := some (3 / 10), drawdown_3m := none
    day_pct := none, vol_ratio := none, score := 19 / 5 }

-- ====== Helper lemmas ======

theorem processFeed_seen_mono {α : Type} (e : String → List α) :
    ∀ (feed seen : List String) (c : String),
      c ∈ seen → c ∈ (processFeed e feed seen).2 := by
  intro feed
  induction feed with
  | nil => intro seen c h; simpa [processFeed] using h
  | cons d rest ih =>
    intro seen c h
    by_cases hd : d ∈ seen
    · simpa [processFeed, hd] using ih seen c h
    · simpa [processFeed, hd] using ih (d :: seen) c (List.mem_cons_of_mem d h)

theorem processFeed_feed_seen {α : Type} (e : String → List α) :
    ∀ (feed seen : List String) (c : String),
      c ∈ feed → c ∈ (processFeed e feed seen).2 := by
  intro feed
  induction feed with
  | nil => intro seen c h; simp at h
  | cons d rest ih =>
    intro seen c h
    by_cases hd : d ∈ seen
    · rcases List.mem_cons.mp h with h1 | h1
      · subst h1; simpa [processFeed, hd] using processFeed_seen_mono e rest seen c hd
      · simpa [processFeed, hd] using ih seen c h1
    · rcases List.mem_cons.mp h with h1 | h1
      · subst h1
        simpa [processFeed, hd] using
          processFeed_seen_mono e rest (c :: seen) c (List.mem_cons_self c seen)
      · simpa [processFeed, hd] using ih (d :: seen) c h1

theorem processFeed_all_seen {α : Type} (e : String → List α) :
    ∀ (feed seen : List String), (∀ c, c ∈ feed → c ∈ seen) →
      (processFeed e feed seen).1 = [] := by
  intro feed
  induction feed with
  | nil => intro seen _; simp [processFeed]
  | cons d rest ih =>
    intro seen h
    have hd : d ∈ seen := h d (List.mem_cons_self d rest)
    simpa [processFeed, hd] using ih seen (fun c hc => h c (List.mem_cons_of_mem d hc))

theorem attemptsUsed_le (retryable : ℕ → Bool) :
    ∀ (maxA i : ℕ), attemptsUsed retryable maxA i ≤ maxA := by
  intro maxA
  induction maxA with
  | zero => intro i; simp [attemptsUsed]
  | succ k ih =>
    intro i
    simp only [attemptsUsed]
    by_cases h : retryable i
    · have := ih (i + 1)
      simp only [h, if_true]
      omega
    · simp [h]

theorem insertDesc_perm (a : Enriched) :
    ∀ l, List.Perm (insertDesc a l) (a :: l) := by
  intro l
  induction l with
  | nil => simp [insertDesc]
  | cons b bs ih =>
    simp only [insertDesc]
    split_ifs with h
    · exact (ih.cons b).trans (List.Perm.swap a b bs)
    · exact List.Perm.refl _

theorem sortDesc_perm : ∀ l, List.Perm (sortDesc l) l := by
  intro l
  induction l with
  | nil => simp [sortDesc]
  | cons a rest ih =>
    exact (insertDesc_perm a (sortDesc rest)).trans (ih.cons a)

theorem insertDesc_pairwise (a : Enriched) :
    ∀ l, List.Pairwise (fun x y => y.score ≤ x.score) l →
      List.Pairwise (fun x y => y.score ≤ x.score) (insertDesc a l) := by
  intro l
  induction l with
  | nil => intro _; simp [insertDesc]
  | cons b bs ih =>
    intro h
    rcases List.pairwise_cons.mp h with ⟨hb, hbs⟩
    simp only [insertDesc]
    split_ifs with hab
    · refine List.pairwise_cons.mpr ⟨?_, ih hbs⟩
      intro x hx
      have hx2 : x ∈ a :: bs := (insertDesc_perm a bs).mem_iff.mp hx
      rcases List.mem_cons.mp hx2 with h1 | h1
      · subst h1; exact le_of_lt hab
      · exact hb x h1
    · refine List.pairwise_cons.mpr ⟨?_, h⟩
      intro x hx
      rcases List.mem_cons.mp hx with h1 | h1
      · subst h1; exact not_lt.mp hab
      · exact (hb x h1).trans (not_lt.mp hab)

theorem sortDesc_pairwise :
    ∀ l, List.Pairwise (fun x y => y.score ≤ x.score) (sortDesc l) := by
  intro l
  induction l with
  | nil => simp [sortDesc]
  | cons a rest ih => exact insertDesc_pairwise a (sortDesc rest) ih

theorem insertDesc_filter (a : Enriched) (q : ℚ) :
    ∀ l, (insertDesc a l).filter (fun e => decide (e.score = q)) =
      if a.score = q then a :: l.filter (fun e => decide (e.score = q))
      else l.filter (fun e => decide (e.score = q)) := by
  intro l
  induction l with
  | nil =>
    by_cases hq : a.score = q <;> simp [insertDesc, List.filter, hq]
  | cons b bs ih =>
    simp only [insertDesc]
    by_cases hab : a.score < b.score
    · rw [if_pos hab]
      by_cases haq : a.score = q
      · have hbq : ¬ b.score = q := by
          intro hbq
          rw [haq, hbq] at hab
          exact lt_irrefl q hab
        simp [List.filter_cons, hbq, ih, haq]
      · by_cases hbq : b.score = q <;> simp [List.filter_cons, hbq, ih, haq]
    · rw [if_neg hab]
      by_cases haq : a.score = q <;> simp [List.filter_cons, haq]

theorem sortDesc_filter (q : ℚ) :
    ∀ l, (sortDesc l).filter (fun e => decide (e.score = q)) =
      l.filter (fun e => decide (e.score = q)) := by
  intro l
  induction l with
  | nil => simp [sortDesc]
  | cons a rest ih =>
    simp only [sortDesc]
    rw [insertDesc_filter a q (sortDesc rest)]
    by_cases hq : a.score = q <;> simp [List.filter_cons, hq, ih]

-- ====== Claim theorems ======

/-- C1: running the pipeline twice against an identical feed snapshot and
identical starting dedup state yields zero new alerts on the second run —
every candidate inspected in the first run is in the dedup state the first
run leaves behind, so the second run short-circuits every candidate and
extracts nothing.  (Dedup store and pipeline loop modelled from the spec;
src/scanner.py carries no dedup state.) -/
theorem c1_second_run_yields_nothing {α : Type} (extract : String → List α)
    (feed s0 : List String) :
    (processFeed extract feed (processFeed extract feed s0).2).1 = [] := by
  apply processFeed_all_seen
  intro c hc
  exact processFeed_feed_seen extract feed s0 c hc

/-- C6: the fetch loop issues at most the configured maximum number of
attempts, and for a non-negative base delay the computed backoff delay is
non-decreasing from attempt n to attempt n+1 and never exceeds the
configured ceiling.  (Retry/backoff modelled from the spec; http_get in
src/scanner.py performs a single attempt.) -/
theorem c6_retry_backoff (base ceiling : ℚ) (retryable : ℕ → Bool)
    (maxA n : ℕ) (hbase : 0 ≤ base) :
    attemptsUsed retryable maxA 0 ≤ maxA ∧
    backoffDelay base ceiling n ≤ backoffDelay base ceiling (n + 1) ∧
    backoffDelay base ceiling n ≤ ceiling := by
  refine ⟨attemptsUsed_le retryable maxA 0, ?_, min_le_right _ _⟩
  apply min_le_min _ le_rfl
  have h2 : (2 : ℚ) ^ n ≤ 2 ^ (n + 1) := by
    apply pow_le_pow_right₀ _ (Nat.le_succ n)
    norm_num
  exact mul_le_mul_of_nonneg_left h2 hbase

/-- C6 witness: five retryable outcomes against a maximum of five
attempts, base delay 1 and ceiling 60, at attempt index 2. -/
theorem c6_retry_backoff_witness :
    attemptsUsed (fun _ => true) 5 0 ≤ 5 ∧
    backoffDelay 1 60 2 ≤ backoffDelay 1 60 (2 + 1) ∧
    backoffDelay 1 60 2 ≤ 60 :=
  c6_retry_backoff 1 60 (fun _ => true) 5 2 (by norm_num)

/-- C7: when both enrichment metrics are absent, passes_structure is false
and main's enrichment step rejects the record — the structural filter
fails closed, and being a total function it cannot raise on absent
inputs. -/
theorem c7_fail_closed (tx : BuyTx) (day_pct vol_ratio : Option ℚ) :
    passes_structure none none = false ∧
    enrichStep tx none none day_pct vol_ratio = none :=
  ⟨rfl, rfl⟩

/-- C2 counterexample: a purchase of 1000 shares at 150 has value exactly
MIN_USD = 150000, and the value filter accepts it (the claim says a value
exactly equal to the configured minimum is rejected). -/
theorem c2_equal_value_accepted :
    (selectTx hdrACME "" "" "" "" "" txAtMin).isSome = true ∧
    (selectTx hdrACME "" "" "" "" "" txAtMin).map BuyTx.value_usd = some MIN_USD := by
  exact ⟨by decide, by decide⟩

/-- C2 (amended): the value filter on scanner.py line 346 rejects exactly
the transactions whose value is strictly below MIN_USD — a value equal to
the minimum is accepted, as is a value one cent above it. -/
theorem c2_threshold_amended (header : Form4Header) (ft ck ac fo xu : String)
    (tx : ParsedTx) (sh pr : ℚ)
    (hcode : pyUpper (pyStripS (tx.code.getD "")) = "P")
    (hacq : ¬(pyUpper (pyStripS (tx.acq_disp.getD "")) ≠ "" ∧
        pyUpper (pyStripS (tx.acq_disp.getD "")) ≠ "A"))
    (hsh : to_float tx.shares = some sh) (hpr : to_float tx.price = some pr) :
    (selectTx header ft ck ac fo xu tx).isSome = true ↔ MIN_USD ≤ sh * pr := by
  simp only [selectTx, hcode, hsh, hpr]
  rw [if_neg (by simp), if_neg hacq]
  by_cases hv : sh * pr < MIN_USD
  · simp [hv, not_le.mpr hv]
  · simp [hv, not_lt.mp hv]

/-- C2 amended witness: one cent above the minimum is accepted. -/
theorem c2_threshold_amended_witness :
    (selectTx hdrACME "" "" "" "" "" txOneCent).isSome = true :=
  (c2_threshold_amended hdrACME "" "" "" "" "" txOneCent 1000 (15001 / 100)
      (by decide) (by decide) (by decide) (by decide)).mpr (by norm_num [MIN_USD])

/-- C5: a parsed block with negative share count and negative price is
materialized into a record — shares -100 at price -2000 multiply to a
value of 200000 which passes the threshold, and no positivity check
exists, contradicting the claim that such a block never yields a
record. -/
theorem c5_negative_values_materialized :
    (selectTx hdrACME "" "" "" "" "" txNegNeg).map
      (fun b => (b.shares, b.price, b.value_usd)) = some (-100, -2000, 200000) := by
  decide

/-- C9: a parsed purchase block (code P) whose acquired/disposed code
carries a non-empty value other than A is never materialized, while a
block with the acquired/disposed code absent remains eligible (it is
materialized whenever the remaining conditions hold). -/
theorem c9_acq_disp_filter (header : Form4Header) (ft ck ac fo xu : String)
    (tx : ParsedTx) :
    (∀ s, tx.acq_disp = some s →
        pyUpper (pyStripS s) ≠ "" → pyUpper (pyStripS s) ≠ "A" →
        selectTx header ft ck ac fo xu tx = none) ∧
    (tx.acq_disp = none → pyUpper (pyStripS (tx.code.getD "")) = "P" →
      ∀ sh pr, to_float tx.shares = some sh → to_float tx.price = some pr →
        ¬ sh * pr < MIN_USD → (selectTx header ft ck ac fo xu tx).isSome = true) := by
  constructor
  · intro s hs hne hnA
    simp only [selectTx, hs, Option.getD_some]
    by_cases hc : pyUpper (pyStripS (tx.code.getD "")) ≠ "P"
    · rw [if_pos hc]
    · rw [if_neg hc, if_pos ⟨hne, hnA⟩]
  · intro hnone hcode sh pr hsh hpr hval
    simp only [selectTx, hnone, Option.getD_none, hcode, hsh, hpr]
    have hempty : pyUpper (pyStripS "") = "" := rfl
    rw [if_neg (by simp), if_neg (by simp [hempty]), if_neg hval]
    rfl

/-- C9 witness: acquired/disposed code D is filtered out; an absent
acquired/disposed code leaves the block eligible. -/
theorem c9_acq_disp_filter_witness :
    selectTx hdrACME "" "" "" "" "" txBadAcq = none ∧
    (selectTx hdrACME "" "" "" "" "" txNoAcq).isSome = true :=
  ⟨(c9_acq_disp_filter hdrACME "" "" "" "" "" txBadAcq).1 "D" rfl
      (by decide) (by decide),
   (c9_acq_disp_filter hdrACME "" "" "" "" "" txNoAcq).2 rfl (by decide)
      1000 200 (by decide) (by decide) (by decide)⟩

/-- C3: the regex extraction matches tag names literally, not by local
name — the same Form 4 document parses into one purchase record with its
header fields when its tags are unprefixed, and into no blocks and an
empty ticker when every tag carries the namespace prefix ns:. -/
theorem c3_namespace_prefix_divergence :
    parse_form4_xml docPlain =
      [{ code := some "P", acq_disp := some "A",
         shares := some "1000", price := some "200" }] ∧
    (parse_header_fields docPlain).ticker = "ACME" ∧
    parse_form4_xml docPrefixed = [] ∧
    (parse_header_fields docPrefixed).ticker = "" := by
  exact ⟨by decide, by decide, by decide, by decide⟩

/-- C4: a block carrying its share count and price as direct text content
parses with both numeric fields unpopulated (the direct-text reads are
discarded by parse_form4_xml) and yields no record downstream, while the
value-wrapped form of the same transaction parses fully and yields one
record. -/
theorem c4_direct_text_divergence :
    parse_form4_xml docDirect =
      [{ code := some "P", acq_disp := some "A", shares := none, price := none }] ∧
    docRecords docDirect "" "" "" "" "" = [] ∧
    (docRecords docPlain "" "" "" "" "").length = 1 := by
  exact ⟨by decide, by decide, by decide⟩

/-- The role weight starts at 1.0 and only ever adds non-negative
bonuses. -/
theorem weight_role_ge_one (t : String) (d o ten : Bool) :
    1 ≤ weight_role t d o ten := by
  simp only [weight_role]
  split_ifs <;> norm_num

/-- A transaction that passes the structural filter collects a structural
bonus of at least 0.8 on top of its role weight. -/
theorem score_tx_floor (v w : ℚ) (rp dd : Option ℚ) (hw : 1 ≤ w)
    (hp : passes_structure rp dd = true) : 18 / 10 ≤ score_tx v w rp dd := by
  have hmax : RANGE_PCTL_MAX = 65 / 100 := rfl
  rcases rp with _ | r <;> rcases dd with _ | d
  · simp [passes_structure] at hp
  · simp only [passes_structure, Bool.false_or, decide_eq_true_eq] at hp
    simp only [score_tx]
    split_ifs <;> linarith
  · simp only [passes_structure, Bool.or_false, decide_eq_true_eq, hmax] at hp
    simp only [score_tx]
    split_ifs <;> linarith
  · simp only [passes_structure, Bool.or_eq_true, decide_eq_true_eq, hmax] at hp
    simp only [score_tx]
    rcases hp with hp | hp <;> split_ifs <;> linarith

/-- C10: every alert main materializes carries a score of at least 1.8 —
the role weight is at least 1.0 for every title/flag combination, the
value and structural bonuses are non-negative, and passing the structural
filter adds a structural bonus of at least 0.8. -/
theorem c10_score_floor (tx : BuyTx) (rp dd dp vr : Option ℚ) (e : Enriched)
    (h : enrichStep tx rp dd dp vr = some e) :
    1 ≤ weight_role tx.insider_title tx.is_director tx.is_officer tx.is_ten_percent ∧
    18 / 10 ≤ e.score := by
  have hw := weight_role_ge_one tx.insider_title tx.is_director tx.is_officer tx.is_ten_percent
  refine ⟨hw, ?_⟩
  unfold enrichStep at h
  by_cases hp : passes_structure rp dd
  · rw [if_pos hp] at h
    injection h with h2
    subst h2
    exact score_tx_floor tx.value_usd _ rp dd hw hp
  · rw [if_neg hp] at h
    exact absurd h (by simp)

/-- C10 witness: a CEO purchase at range percentile 0.3 scores 3.8. -/
theorem c10_score_floor_witness :
    1 ≤ weight_role buyW.insider_title buyW.is_director buyW.is_officer
        buyW.is_ten_percent ∧
    18 / 10 ≤ alertW.score :=
  c10_score_floor buyW (some (3 / 10)) none none none alertW (by decide)

/-- C8 counterexample: the digest built from nine alerts (one more than
MAX_ITEMS = 8) is character-for-character the digest of just the first
eight — the ninth alert is dropped with no summary line counting the
non-included alerts, contradicting the claim that such a count is
appended. -/
theorem c8_truncation_is_silent :
    build_digest nineAlerts = build_digest eightAlerts ∧
    build_digest nineAlerts =
      "KAS RADAR 06:00\n\n1) T9 — Score 9.0\n   Insider: CEO | $200,000 (P)\n   Struktūra: Range n/a | 3m DD n/a | Reakcija n/a | Vol n/a\n   SEC: u\n\n2) T8 — Score 8.0\n   Insider: CEO | $0 (P)\n   Struktūra: Range n/a | 3m DD n/a | Reakcija n/a | Vol n/a\n   SEC: u\n\n3) T7 — Score 7.0\n   Insider: CEO | $0 (P)\n   Struktūra: Range n/a | 3m DD n/a | Reakcija n/a | Vol n/a\n   SEC: u\n\n4) T6 — Score 6.0\n   Insider: CEO | $0 (P)\n   Struktūra: Range n/a | 3m DD n/a | Reakcija n/a | Vol n/a\n   SEC: u\n\n5) T5 — Score 5.0\n   Insider: CEO | $0 (P)\n   Struktūra: Range n/a | 3m DD n/a | Reakcija n/a | Vol n/a\n   SEC: u\n\n6) T4 — Score 4.0\n   Insider: CEO | $0 (P)\n   Struktūra: Range n/a | 3m DD n/a | Reakcija n/a | Vol n/a\n   SEC: u\n\n7) T3 — Score 3.0\n   Insider: CEO | $0 (P)\n   Struktūra: Range n/a | 3m DD n/a | Reakcija n/a | Vol n/a\n   SEC: u\n\n8) T2 — Score 2.0\n   Insider: CEO | $0 (P)\n   Struktūra: Range n/a | 3m DD n/a | Reakcija n/a | Vol n/a\n   SEC: u" := by
  exact ⟨by decide, by decide⟩

/-- C8 (amended): for every non-empty alert list, build_digest renders the
stable descending-by-score sort truncated to MAX_ITEMS — the sorted list
is a permutation of the input, non-increasing in score, and preserves the
input's relative order within every score class — and alerts beyond
MAX_ITEMS are silently dropped, with no summary line counting them. -/
theorem c8_digest_amended (items : List Enriched) (q : ℚ) (h : items ≠ []) :
    List.Perm (sortDesc items) items ∧
    List.Pairwise (fun x y => y.score ≤ x.score) (sortDesc items) ∧
    (sortDesc items).filter (fun e => decide (e.score = q)) =
      items.filter (fun e => decide (e.score = q)) ∧
    build_digest items = renderDigest ((sortDesc items).take MAX_ITEMS) := by
  refine ⟨sortDesc_perm items, sortDesc_pairwise items, sortDesc_filter q items, ?_⟩
  unfold build_digest
  rw [if_neg]
  simp [List.isEmpty_eq_true, h]

/-- C8 amended witness at the nine concrete alerts and score class 9. -/
theorem c8_digest_amended_witness :
    List.Perm (sortDesc nineAlerts) nineAlerts ∧
    List.Pairwise (fun x y => y.score ≤ x.score) (sortDesc nineAlerts) ∧
    (sortDesc nineAlerts).filter (fun e => decide (e.score = (9 : ℚ))) =
      nineAlerts.filter (fun e => decide (e.score = (9 : ℚ))) ∧
    build_digest nineAlerts = renderDigest ((sortDesc nineAlerts).take MAX_ITEMS) :=
  c8_digest_amended nineAlerts 9 (by decide)

